import Mathlib

/-!
# Pencil Physics: shape bindings, world session and mouse dragging

A shallow embedding of `src/main.cpp` (class `PencilPhysics`).  The Box2D world
is an external collaborator; it is represented by the bookkeeping that the
session can observe: the live bodies, the live joints and the handles handed
out.  Pointers are handles (`Nat`); the nullable `b2MouseJoint*` is an
`Option Nat`.  A call through a joint pointer that is null or refers to a joint
the world has already deleted is undefined behaviour in C++; such a call
returns `none` here, so `moveMouse`, `detachMouse` and `run` are
`Option`-valued.  C++ `float` values are rationals, so the constants of the
source (`0.5`, `100`, `2`, `-9.8`) are exact.
-/

namespace Pencil

/-! ## Vectors -/

/-- Two-component vector (`glm::vec2`, `b2Vec2`). -/
structure Vec2 where
  x : ℚ
  y : ℚ
deriving DecidableEq

/-- Three-component vector (`glm::vec3`), used for colours. -/
structure Vec3 where
  r : ℚ
  g : ℚ
  b : ℚ
deriving DecidableEq

/-- Component-wise sum (`vec2 + vec2`). -/
def Vec2.add (a b : Vec2) : Vec2 := ⟨a.x + b.x, a.y + b.y⟩

/-- Scaling (`float * vec2`). -/
def Vec2.scale (k : ℚ) (a : Vec2) : Vec2 := ⟨k * a.x, k * a.y⟩

/-! ## The physics world (Box2D, external) -/

/-- Rigid body registered in the world: its handle and its static flag. -/
structure b2Body where
  id : Nat
  isStatic : Bool
deriving DecidableEq

/-- Fields of `b2MouseJointDef` that `attachMouse` fills in. -/
structure b2MouseJointDef where
  bodyA : Nat
  bodyB : Nat
  target : Vec2
  collideConnected : Bool
  maxForce : ℚ
  frequencyHz : ℚ
  dampingRatio : ℚ
deriving DecidableEq

/-- Live mouse joint: its handle and the values it was created with. -/
structure b2MouseJoint where
  id : Nat
  bodyA : Nat
  bodyB : Nat
  target : Vec2
  collideConnected : Bool
  maxForce : ℚ
  frequencyHz : ℚ
  dampingRatio : ℚ
deriving DecidableEq

/-- Observable bookkeeping of a `b2World`. -/
structure b2World where
  gravity : Vec2
  bodies : List b2Body
  joints : List b2MouseJoint
  nextBody : Nat
  nextJoint : Nat
deriving DecidableEq

namespace b2World

/-- World creation, `new b2World(gravity)`: no bodies, no joints. -/
def create (gravity : Vec2) : b2World := ⟨gravity, [], [], 0, 0⟩

/-- Body creation, `CreateBody`: registers a body under a fresh handle. -/
def CreateBody (w : b2World) (isStatic : Bool) : Nat × b2World :=
  (w.nextBody,
    { w with bodies := w.bodies ++ [⟨w.nextBody, isStatic⟩], nextBody := w.nextBody + 1 })

/-- Body destruction, `DestroyBody`: removes the body; Box2D also deletes every
joint attached to the destroyed body. -/
def DestroyBody (w : b2World) (h : Nat) : b2World :=
  { w with
    bodies := w.bodies.filter (fun b => b.id ≠ h),
    joints := w.joints.filter (fun j => j.bodyA ≠ h ∧ j.bodyB ≠ h) }

/-- Joint creation, `CreateJoint`: registers a joint under a fresh handle. -/
def CreateJoint (w : b2World) (d : b2MouseJointDef) : Nat × b2World :=
  (w.nextJoint,
    { w with
      joints := w.joints ++ [⟨w.nextJoint, d.bodyA, d.bodyB, d.target, d.collideConnected,
        d.maxForce, d.frequencyHz, d.dampingRatio⟩],
      nextJoint := w.nextJoint + 1 })

/-- Joint lookup by handle: the live joint behind it, if any. -/
def joint? (w : b2World) (k : Nat) : Option b2MouseJoint :=
  w.joints.find? (fun j => j.id = k)

/-- Joint destruction, `DestroyJoint`: removes the joint behind the handle.  The
call is defined only on a live joint: on a null pointer or on a joint the world
has already deleted it is undefined behaviour, rendered as `none`. -/
def DestroyJoint (w : b2World) (h : Option Nat) : Option b2World :=
  match h with
  | none => none
  | some k =>
    match w.joint? k with
    | none => none
    | some _ => some { w with joints := w.joints.filter (fun j => j.id ≠ k) }

/-- Retargeting, `joint->SetTarget(p)`: overwrites the target of the joint behind
the handle.  The call is defined only on a live joint: on a null pointer or on
a joint the world has already deleted it is undefined behaviour, rendered as
`none`. -/
def SetTarget (w : b2World) (h : Option Nat) (p : Vec2) : Option b2World :=
  match h with
  | none => none
  | some k =>
    match w.joint? k with
    | none => none
    | some _ =>
      some { w with
        joints := w.joints.map (fun j => if j.id = k then { j with target := p } else j) }

end b2World

/-! ## Shape bindings (`shapes.hpp`) -/

/-- Reason a spawn is rejected. -/
inductive SpawnError where
  | invalidGeometry
deriving DecidableEq

/-- Circle binding; `center`, `radius` and `body` are the members `main.cpp` reads. -/
structure Circle where
  center : Vec2
  radius : ℚ
  body : Nat
deriving DecidableEq

/-- Box binding; `center`, `size` and `body` are the members `main.cpp` reads. -/
structure Box where
  center : Vec2
  size : Vec2
  body : Nat
deriving DecidableEq

/-- Polyline binding; `vertices` and `body` are the members `main.cpp` reads. -/
structure Polyline where
  vertices : List Vec2
  body : Nat
deriving DecidableEq

/-- Modelled from the spec: the constructor `Circle(center, radius, world, isStatic)` of
`shapes.hpp`.  It creates the rigid body with the given static flag, registers
it in the world and returns the binding holding the body handle; a radius that
is zero or negative is rejected before anything is registered. -/
def Circle.spawn (center : Vec2) (radius : ℚ) (w : b2World) (isStatic : Bool) :
    Except SpawnError (Circle × b2World) :=
  if radius ≤ 0 then .error .invalidGeometry
  else
    let r := w.CreateBody isStatic
    .ok (⟨center, radius, r.1⟩, r.2)

/-- Modelled from the spec: the constructor `Box(center, size, world, isStatic)` of
`shapes.hpp`.  It creates the rigid body with the given static flag, registers
it in the world and returns the binding; a box with a zero or negative extent
is rejected before anything is registered. -/
def Box.spawn (center : Vec2) (size : Vec2) (w : b2World) (isStatic : Bool) :
    Except SpawnError (Box × b2World) :=
  if size.x ≤ 0 ∨ size.y ≤ 0 then .error .invalidGeometry
  else
    let r := w.CreateBody isStatic
    .ok (⟨center, size, r.1⟩, r.2)

/-- Modelled from the spec: the constructor `Polyline(vertices, world)` of `shapes.hpp`.
It creates a static body, registers it in the world and returns the binding; a
vertex list with fewer than two vertices is rejected before anything is
registered. -/
def Polyline.spawn (vertices : List Vec2) (w : b2World) :
    Except SpawnError (Polyline × b2World) :=
  if vertices.length < 2 then .error .invalidGeometry
  else
    let r := w.CreateBody true
    .ok (⟨vertices, r.1⟩, r.2)

/-- Modelled from the spec: `Circle::destroy()` of `shapes.hpp` destroys the backing
body in the world. -/
def Circle.destroy (c : Circle) (w : b2World) : b2World := w.DestroyBody c.body

/-- Modelled from the spec: `Box::destroy()` of `shapes.hpp` destroys the backing body
in the world. -/
def Box.destroy (b : Box) (w : b2World) : b2World := w.DestroyBody b.body

/-- Modelled from the spec: `Polyline::destroy()` of `shapes.hpp` destroys the backing
body in the world. -/
def Polyline.destroy (p : Polyline) (w : b2World) : b2World := w.DestroyBody p.body

/-- The hit tests `Circle::contains` and `Box::contains` are declared in
`shapes.hpp`; `attachMouse` is parametric in them.  They read the binding and
the pose of its body, which lives in the world. -/
structure HitTest where
  circle : b2World → Circle → Vec2 → Bool
  box : b2World → Box → Vec2 → Bool

/-- Modelled from the spec: hit tests for bodies that have not moved since they were
spawned: distance to the centre at most the radius for a circle, both axes
within the extents for a box, boundary included. -/
def HitTest.atRest : HitTest where
  circle := fun _ c p =>
    decide ((p.x - c.center.x) * (p.x - c.center.x) + (p.y - c.center.y) * (p.y - c.center.y)
      ≤ c.radius * c.radius)
  box := fun _ b p =>
    decide (|p.x - b.center.x| ≤ b.size.x) && decide (|p.y - b.center.y| ≤ b.size.y)

/-! ## The session (`class PencilPhysics`) -/

/-- Members of `PencilPhysics` that hold the scene and the drag state.  The
window, camera, UI helper and drawing helper are external collaborators. -/
structure PencilPhysics where
  walls : Polyline
  redCircle : Circle
  whiteBox : Box
  circles : List Circle
  boxes : List Box
  polylines : List Polyline
  worldMin : Vec2
  worldMax : Vec2
  world : b2World
  mousejoint : Option Nat
  attached : Bool
deriving DecidableEq

/-- Outcome of a method that constructs bindings: normal return, or the rejection
raised by a constructor. -/
abbrev Outcome := Except SpawnError Unit

namespace PencilPhysics

/-- Member values before the constructor body runs: empty vectors and
default-constructed bindings; `world`, `mousejoint` and `attached` are
uninitialised in C++ and are all assigned by `initWorld`. -/
def blank : PencilPhysics where
  walls := ⟨[], 0⟩
  redCircle := ⟨⟨0, 0⟩, 0, 0⟩
  whiteBox := ⟨⟨0, 0⟩, ⟨0, 0⟩, 0⟩
  circles := []
  boxes := []
  polylines := []
  worldMin := ⟨0, 0⟩
  worldMax := ⟨0, 0⟩
  world := b2World.create ⟨0, 0⟩
  mousejoint := none
  attached := false

/-- `initWorld()`: creates the world with gravity `(0, -9.8)`, the wall polyline on
the four corner points of the bounds, the red circle and the white box as static
bodies, and resets the drag state.  Returns the outcome and the members as they
are when the method is left. -/
def initWorld (s : PencilPhysics) : Outcome × PencilPhysics :=
  let s1 := { s with world := b2World.create ⟨0, -98 / 10⟩ }
  let wallVerts : List Vec2 :=
    [⟨s1.worldMin.x, s1.worldMax.y⟩, ⟨s1.worldMin.x, s1.worldMin.y⟩,
     ⟨s1.worldMax.x, s1.worldMin.y⟩, ⟨s1.worldMax.x, s1.worldMax.y⟩]
  match Polyline.spawn wallVerts s1.world with
  | .error e => (.error e, s1)
  | .ok (p, w1) =>
    let s2 := { s1 with walls := p, world := w1 }
    match Circle.spawn ⟨-5, 2⟩ (1 / 2) s2.world true with
    | .error e => (.error e, s2)
    | .ok (c, w2) =>
      let s3 := { s2 with redCircle := c, world := w2 }
      match Box.spawn ⟨5, 2⟩ ⟨9 / 10, 9 / 10⟩ s3.world true with
      | .error e => (.error e, s3)
      | .ok (b, w3) =>
        (.ok (), { s3 with whiteBox := b, world := w3, mousejoint := none, attached := false })

/-- The constructor `PencilPhysics()`: sets the bounds to `(-8,0)` and `(8,9)` and
calls `initWorld()`. -/
def create : PencilPhysics :=
  (initWorld { blank with worldMin := ⟨-8, 0⟩, worldMax := ⟨8, 9⟩ }).2

/-- `addCircle()`: spawns a dynamic circle of radius `0.5` at
`(-5,7) + 0.5 * randomVec2()` and appends it to `circles`; `rnd` is the value
`randomVec2()` returned. -/
def addCircle (s : PencilPhysics) (rnd : Vec2) : Outcome × PencilPhysics :=
  let position := Vec2.add ⟨-5, 7⟩ (Vec2.scale (1 / 2) rnd)
  match Circle.spawn position (1 / 2) s.world false with
  | .error e => (.error e, s)
  | .ok (c, w) => (.ok (), { s with world := w, circles := s.circles ++ [c] })

/-- `addBox()`: spawns a dynamic box of size `(1.2, 0.6)` at
`(-5,7) + 0.5 * randomVec2()` and appends it to `boxes`. -/
def addBox (s : PencilPhysics) (rnd : Vec2) : Outcome × PencilPhysics :=
  let position := Vec2.add ⟨-5, 7⟩ (Vec2.scale (1 / 2) rnd)
  match Box.spawn position ⟨12 / 10, 6 / 10⟩ s.world false with
  | .error e => (.error e, s)
  | .ok (b, w) => (.ok (), { s with world := w, boxes := s.boxes ++ [b] })

/-- `addPolyline(vertices)`: constructs the polyline, then appends it to
`polylines`.  The argument of `push_back` is evaluated first, so a rejected
construction leaves the method before the vector is touched. -/
def addPolyline (s : PencilPhysics) (vertices : List Vec2) : Outcome × PencilPhysics :=
  match Polyline.spawn vertices s.world with
  | .error e => (.error e, s)
  | .ok (p, w) => (.ok (), { s with world := w, polylines := s.polylines ++ [p] })

/-- Collection a lifecycle event refers to. -/
inductive Coll where
  | circles
  | boxes
  | polylines
deriving DecidableEq

/-- Lifecycle events of `clear()`: `destroy()` called on element `i` of a
collection, and the collection emptied by `.clear()`. -/
inductive LifeEvent where
  | destroy (k : Coll) (i : Nat)
  | emptied (k : Coll)
deriving DecidableEq

/-- First loop of `clear()`: `circles[i].destroy()` for `i` from the current index
up to the size. -/
def clearCircles : List Circle → Nat → b2World × List LifeEvent → b2World × List LifeEvent
  | [], _, acc => acc
  | c :: rest, i, acc =>
    clearCircles rest (i + 1) (c.destroy acc.1, acc.2 ++ [LifeEvent.destroy Coll.circles i])

/-- Second loop of `clear()`: `boxes[i].destroy()`. -/
def clearBoxes : List Box → Nat → b2World × List LifeEvent → b2World × List LifeEvent
  | [], _, acc => acc
  | b :: rest, i, acc =>
    clearBoxes rest (i + 1) (b.destroy acc.1, acc.2 ++ [LifeEvent.destroy Coll.boxes i])

/-- Third loop of `clear()`: `polylines[i].destroy()`. -/
def clearPolylines : List Polyline → Nat → b2World × List LifeEvent → b2World × List LifeEvent
  | [], _, acc => acc
  | p :: rest, i, acc =>
    clearPolylines rest (i + 1) (p.destroy acc.1, acc.2 ++ [LifeEvent.destroy Coll.polylines i])

/-- `clear()`: destroys every circle and empties `circles`, then the same for
`boxes`, then for `polylines`.  Returns the lifecycle events in the order they
happen and the members afterwards.  The drag members are not assigned. -/
def clear (s : PencilPhysics) : List LifeEvent × PencilPhysics :=
  let r1 := clearCircles s.circles 0 (s.world, [])
  let s1 := { s with world := r1.1, circles := [] }
  let r2 := clearBoxes s1.boxes 0 (s1.world, r1.2 ++ [LifeEvent.emptied Coll.circles])
  let s2 := { s1 with world := r2.1, boxes := [] }
  let r3 := clearPolylines s2.polylines 0 (s2.world, r2.2 ++ [LifeEvent.emptied Coll.boxes])
  (r3.2 ++ [LifeEvent.emptied Coll.polylines], { s2 with world := r3.1, polylines := [] })

/-- Transformation handed to a draw call: `mat4()` or the pose of a body. -/
inductive Transform where
  | identity
  | ofBody (h : Nat)
deriving DecidableEq

/-- Calls on the drawing helper: `draw.circle`, `draw.box`, `draw.polyline`. -/
inductive DrawCall where
  | circle (t : Transform) (center : Vec2) (radius : ℚ) (color : Vec3)
  | box (t : Transform) (center : Vec2) (size : Vec2) (color : Vec3)
  | polyline (t : Transform) (vertices : List Vec2) (color : Vec3)
deriving DecidableEq

end PencilPhysics

/-- Modelled from the spec: `Circle::getTransformation()` of `shapes.hpp` reads the
live pose of the backing body. -/
def Circle.getTransformation (c : Circle) : PencilPhysics.Transform := .ofBody c.body

/-- Modelled from the spec: `Box::getTransformation()` of `shapes.hpp` reads the live
pose of the backing body. -/
def Box.getTransformation (b : Box) : PencilPhysics.Transform := .ofBody b.body

namespace PencilPhysics

/-- `drawGraphics()`: the calls on the drawing helper, in order, and the members
afterwards.  `currentPolyline` is what `uiHelper.getPolyline()` returned. -/
def drawGraphics (s : PencilPhysics) (currentPolyline : List Vec2) :
    List DrawCall × PencilPhysics :=
  let sketch : List DrawCall :=
    if currentPolyline.length ≥ 2 then
      [DrawCall.polyline .identity currentPolyline ⟨6 / 10, 6 / 10, 6 / 10⟩]
    else []
  let fixed : List DrawCall :=
    [DrawCall.circle .identity s.redCircle.center s.redCircle.radius ⟨1, 0, 0⟩,
     DrawCall.box .identity s.whiteBox.center s.whiteBox.size ⟨1, 1, 1⟩]
  (sketch ++ fixed
    ++ s.circles.map (fun c => DrawCall.circle c.getTransformation c.center c.radius ⟨0, 0, 0⟩)
    ++ s.boxes.map (fun b => DrawCall.box b.getTransformation b.center b.size ⟨0, 0, 0⟩)
    ++ s.polylines.map (fun p => DrawCall.polyline .identity p.vertices ⟨0, 0, 0⟩),
   s)

/-- Body of the `if` inside both loops of `attachMouse`: sets `attached`, fills
the joint definition and stores the created joint in `mousejoint`. -/
def attachTo (s : PencilPhysics) (bodyB : Nat) (worldPoint : Vec2) : PencilPhysics :=
  let s1 := { s with attached := true }
  let mousejointdef : b2MouseJointDef :=
    { bodyA := s1.walls.body, bodyB := bodyB, target := worldPoint, collideConnected := true,
      maxForce := 100, frequencyHz := 2, dampingRatio := 1 / 2 }
  let r := s1.world.CreateJoint mousejointdef
  { s1 with world := r.2, mousejoint := some r.1 }

/-- First loop of `attachMouse`: `for (i; !attached && i < circles.size(); i++)`
over the circles from the current index on. -/
def attachCircles (ht : HitTest) (worldPoint : Vec2) : List Circle → PencilPhysics → PencilPhysics
  | [], s => s
  | c :: rest, s =>
    if s.attached then s
    else if ht.circle s.world c worldPoint then
      attachCircles ht worldPoint rest (attachTo s c.body worldPoint)
    else attachCircles ht worldPoint rest s

/-- Second loop of `attachMouse`: `for (i; !attached && i < boxes.size(); i++)`
over the boxes from the current index on. -/
def attachBoxes (ht : HitTest) (worldPoint : Vec2) : List Box → PencilPhysics → PencilPhysics
  | [], s => s
  | b :: rest, s =>
    if s.attached then s
    else if ht.box s.world b worldPoint then
      attachBoxes ht worldPoint rest (attachTo s b.body worldPoint)
    else attachBoxes ht worldPoint rest s

/-- `attachMouse(worldPoint)`: the circle loop followed by the box loop. -/
def attachMouse (ht : HitTest) (s : PencilPhysics) (worldPoint : Vec2) : PencilPhysics :=
  let s1 := attachCircles ht worldPoint s.circles s
  attachBoxes ht worldPoint s1.boxes s1

/-- `moveMouse(worldPoint)`: when `attached`, calls `SetTarget` through
`mousejoint`.  The result is `none` when that call is undefined, that is when
`mousejoint` is null or refers to a joint that no longer exists. -/
def moveMouse (s : PencilPhysics) (worldPoint : Vec2) : Option PencilPhysics :=
  if s.attached then
    match s.world.SetTarget s.mousejoint worldPoint with
    | none => none
    | some w => some { s with world := w }
  else some s

/-- `detachMouse()`: when `attached`, passes `mousejoint` to `DestroyJoint`, nulls
`mousejoint` and resets `attached`.  The result is `none` when the
`DestroyJoint` call is undefined, that is when `mousejoint` is null or refers
to a joint that no longer exists. -/
def detachMouse (s : PencilPhysics) : Option PencilPhysics :=
  if s.attached then
    match s.world.DestroyJoint s.mousejoint with
    | none => none
    | some w => some { s with world := w, mousejoint := none, attached := false }
  else some s

/-- Requests the UI can issue on a session. -/
inductive Op where
  | addCircle (rnd : Vec2)
  | addBox (rnd : Vec2)
  | addPolyline (vertices : List Vec2)
  | clear
  | attachMouse (worldPoint : Vec2)
  | moveMouse (worldPoint : Vec2)
  | detachMouse
deriving DecidableEq

/-- Members after one request; `none` when the request runs into undefined
behaviour. -/
def step (ht : HitTest) (s : PencilPhysics) : Op → Option PencilPhysics
  | .addCircle rnd => some (s.addCircle rnd).2
  | .addBox rnd => some (s.addBox rnd).2
  | .addPolyline vertices => some (s.addPolyline vertices).2
  | .clear => some s.clear.2
  | .attachMouse p => some (s.attachMouse ht p)
  | .moveMouse p => s.moveMouse p
  | .detachMouse => s.detachMouse

/-- Members after a sequence of requests, oldest first; `none` as soon as one of
them runs into undefined behaviour. -/
def run (ht : HitTest) (s : PencilPhysics) : List Op → Option PencilPhysics
  | [] => some s
  | op :: rest =>
    match step ht s op with
    | none => none
    | some t => run ht t rest

end PencilPhysics

/-! ## Predicates and sample scenes used by the statements -/

namespace PencilPhysics

/-- Drag invariant: idle with no joint in the world, or dragging with exactly one
joint in the world, the one `mousejoint` refers to. -/
def DragInv (s : PencilPhysics) : Prop :=
  (s.attached = false ∧ s.world.joints = []) ∨
  (s.attached = true ∧ ∃ j, s.world.joints = [j] ∧ s.mousejoint = some j.id)

/-- Everything outside the drag-joint slot agrees between `s` and `t`: the
bindings, the bounds, and the bodies, gravity and body counter of the world. -/
def SceneFrame (s t : PencilPhysics) : Prop :=
  t.circles = s.circles ∧ t.boxes = s.boxes ∧ t.polylines = s.polylines ∧
  t.walls = s.walls ∧ t.redCircle = s.redCircle ∧ t.whiteBox = s.whiteBox ∧
  t.worldMin = s.worldMin ∧ t.worldMax = s.worldMax ∧
  t.world.bodies = s.world.bodies ∧ t.world.gravity = s.world.gravity ∧
  t.world.nextBody = s.world.nextBody

/-- Scene with a circle and a box spawned at the same place, `(-5,7)`. -/
def overlapScene : PencilPhysics :=
  ((create.addCircle ⟨0, 0⟩).2.addBox ⟨0, 0⟩).2

/-- The scene `overlapScene` while its circle is dragged from `(-5,7)`. -/
def draggingScene : PencilPhysics :=
  overlapScene.attachMouse HitTest.atRest ⟨-5, 7⟩

/-- Body handles owned by the bindings in `circles`, `boxes` and `polylines`. -/
def dynamicHandles (s : PencilPhysics) : List Nat :=
  s.circles.map (fun c => c.body) ++ s.boxes.map (fun b => b.body)
    ++ s.polylines.map (fun p => p.body)

/-- Static bodies are set apart: `walls`, `redCircle` and `whiteBox` hold the
handles 0, 1 and 2, their bodies are registered as static, and every handle
owned by a spawned binding is 3 or more. -/
def StaticInv (s : PencilPhysics) : Prop :=
  s.walls.body = 0 ∧ s.redCircle.body = 1 ∧ s.whiteBox.body = 2 ∧
  (⟨0, true⟩ : b2Body) ∈ s.world.bodies ∧ (⟨1, true⟩ : b2Body) ∈ s.world.bodies ∧
  (⟨2, true⟩ : b2Body) ∈ s.world.bodies ∧ 3 ≤ s.world.nextBody ∧
  ∀ h ∈ dynamicHandles s, 3 ≤ h

/-- Segments between consecutive vertices of a polyline. -/
def segments (vs : List Vec2) : List (Vec2 × Vec2) := vs.zip vs.tail

/-- A scene with one binding of each kind: `overlapScene` plus a polyline. -/
def mixedScene : PencilPhysics :=
  (overlapScene.addPolyline [⟨0, 1⟩, ⟨1, 1⟩]).2

/-- The session after spawning one circle, at `(-5,7)`. -/
def circleScene : PencilPhysics :=
  (create.addCircle ⟨0, 0⟩).2

/-- The session `circleScene` after pressing at the circle centre `(-5,7)`. -/
def grabbedScene : PencilPhysics :=
  circleScene.attachMouse HitTest.atRest ⟨-5, 7⟩

/-- The session `grabbedScene` after `clear()` with the button still down. -/
def clearedWhileDragging : PencilPhysics :=
  grabbedScene.clear.2

end PencilPhysics

/-! ## Scanning lemmas -/

namespace PencilPhysics

/-- A list with an element satisfying `p` splits at the first such element. -/
theorem exists_first_hit {α : Type} (p : α → Bool) (l : List α) (h : ∃ a ∈ l, p a = true) :
    ∃ pre c post, l = pre ++ c :: post ∧ (∀ a ∈ pre, p a = false) ∧ p c = true := by
  induction l with
  | nil => simp at h
  | cons a rest ih =>
    by_cases ha : p a = true
    · exact ⟨[], a, rest, by simp, by simp, ha⟩
    · have hrest : ∃ b ∈ rest, p b = true := by
        obtain ⟨b, hb, hpb⟩ := h
        rcases List.mem_cons.mp hb with rfl | hb
        · exact absurd hpb ha
        · exact ⟨b, hb, hpb⟩
      obtain ⟨pre, c, post, hl, hpre, hc⟩ := ih hrest
      refine ⟨a :: pre, c, post, by simp [hl], ?_, hc⟩
      intro x hx
      rcases List.mem_cons.mp hx with rfl | hx
      · simpa using ha
      · exact hpre x hx

theorem attachTo_attached (s : PencilPhysics) (h : Nat) (p : Vec2) :
    (s.attachTo h p).attached = true := rfl

theorem attachCircles_of_attached (ht : HitTest) (p : Vec2) (cs : List Circle)
    (s : PencilPhysics) (h : s.attached = true) : attachCircles ht p cs s = s := by
  cases cs <;> simp [attachCircles, h]

theorem attachBoxes_of_attached (ht : HitTest) (p : Vec2) (bs : List Box)
    (s : PencilPhysics) (h : s.attached = true) : attachBoxes ht p bs s = s := by
  cases bs <;> simp [attachBoxes, h]

theorem attachCircles_miss (ht : HitTest) (p : Vec2) (cs : List Circle) (s : PencilPhysics)
    (hmiss : ∀ c ∈ cs, ht.circle s.world c p = false) : attachCircles ht p cs s = s := by
  induction cs with
  | nil => rfl
  | cons c rest ih =>
    have hc : ht.circle s.world c p = false := hmiss c (by simp)
    have hr : ∀ a ∈ rest, ht.circle s.world a p = false := fun a ha => hmiss a (by simp [ha])
    by_cases hatt : s.attached = true
    · simp [attachCircles, hatt]
    · simp [attachCircles, hatt, hc, ih hr]

theorem attachBoxes_miss (ht : HitTest) (p : Vec2) (bs : List Box) (s : PencilPhysics)
    (hmiss : ∀ b ∈ bs, ht.box s.world b p = false) : attachBoxes ht p bs s = s := by
  induction bs with
  | nil => rfl
  | cons b rest ih =>
    have hb : ht.box s.world b p = false := hmiss b (by simp)
    have hr : ∀ a ∈ rest, ht.box s.world a p = false := fun a ha => hmiss a (by simp [ha])
    by_cases hatt : s.attached = true
    · simp [attachBoxes, hatt]
    · simp [attachBoxes, hatt, hb, ih hr]

theorem attachCircles_hit (ht : HitTest) (p : Vec2) (s : PencilPhysics)
    (hidle : s.attached = false) (pre : List Circle) (c : Circle) (post : List Circle)
    (hpre : ∀ a ∈ pre, ht.circle s.world a p = false) (hc : ht.circle s.world c p = true) :
    attachCircles ht p (pre ++ c :: post) s = s.attachTo c.body p := by
  induction pre with
  | nil =>
    simp [attachCircles, hidle, hc,
      attachCircles_of_attached ht p post _ (attachTo_attached s c.body p)]
  | cons a rest ih =>
    have ha : ht.circle s.world a p = false := hpre a (by simp)
    have hr : ∀ x ∈ rest, ht.circle s.world x p = false := fun x hx => hpre x (by simp [hx])
    simp [attachCircles, hidle, ha, ih hr]

theorem attachBoxes_hit (ht : HitTest) (p : Vec2) (s : PencilPhysics)
    (hidle : s.attached = false) (pre : List Box) (b : Box) (post : List Box)
    (hpre : ∀ a ∈ pre, ht.box s.world a p = false) (hb : ht.box s.world b p = true) :
    attachBoxes ht p (pre ++ b :: post) s = s.attachTo b.body p := by
  induction pre with
  | nil =>
    simp [attachBoxes, hidle, hb,
      attachBoxes_of_attached ht p post _ (attachTo_attached s b.body p)]
  | cons a rest ih =>
    have ha : ht.box s.world a p = false := hpre a (by simp)
    have hr : ∀ x ∈ rest, ht.box s.world x p = false := fun x hx => hpre x (by simp [hx])
    simp [attachBoxes, hidle, ha, ih hr]

/-- While a drag is in progress both loops of `attachMouse` are skipped. -/
theorem attachMouse_of_attached (ht : HitTest) (s : PencilPhysics) (p : Vec2)
    (h : s.attached = true) : s.attachMouse ht p = s := by
  simp [attachMouse, attachCircles_of_attached ht p _ s h, attachBoxes_of_attached ht p _ s h]

/-- Idle, first circle hit: the circle loop attaches to it and the box loop is skipped. -/
theorem attachMouse_circle (ht : HitTest) (s : PencilPhysics) (p : Vec2)
    (hidle : s.attached = false) (pre : List Circle) (c : Circle) (post : List Circle)
    (hsplit : s.circles = pre ++ c :: post)
    (hpre : ∀ a ∈ pre, ht.circle s.world a p = false) (hc : ht.circle s.world c p = true) :
    s.attachMouse ht p = s.attachTo c.body p := by
  have h1 : attachCircles ht p s.circles s = s.attachTo c.body p := by
    rw [hsplit]; exact attachCircles_hit ht p s hidle pre c post hpre hc
  simp only [attachMouse, h1]
  exact attachBoxes_of_attached ht p _ _ (attachTo_attached s c.body p)

/-- Idle, no circle hit, first box hit: the box loop attaches to it. -/
theorem attachMouse_box (ht : HitTest) (s : PencilPhysics) (p : Vec2)
    (hidle : s.attached = false) (hmiss : ∀ c ∈ s.circles, ht.circle s.world c p = false)
    (pre : List Box) (b : Box) (post : List Box) (hsplit : s.boxes = pre ++ b :: post)
    (hpre : ∀ a ∈ pre, ht.box s.world a p = false) (hb : ht.box s.world b p = true) :
    s.attachMouse ht p = s.attachTo b.body p := by
  have h1 : attachCircles ht p s.circles s = s := attachCircles_miss ht p _ s hmiss
  simp only [attachMouse, h1]
  rw [hsplit]; exact attachBoxes_hit ht p s hidle pre b post hpre hb

/-- Idle, nothing hit: `attachMouse` changes nothing. -/
theorem attachMouse_miss (ht : HitTest) (s : PencilPhysics) (p : Vec2)
    (hc : ∀ c ∈ s.circles, ht.circle s.world c p = false)
    (hb : ∀ b ∈ s.boxes, ht.box s.world b p = false) : s.attachMouse ht p = s := by
  have h1 : attachCircles ht p s.circles s = s := attachCircles_miss ht p _ s hc
  simp only [attachMouse, h1]
  exact attachBoxes_miss ht p _ s hb

/-- Outcome of `attachMouse`: either nothing changed or one `attachTo` ran. -/
theorem attachMouse_cases (ht : HitTest) (s : PencilPhysics) (p : Vec2) :
    s.attachMouse ht p = s ∨ (s.attached = false ∧ ∃ h, s.attachMouse ht p = s.attachTo h p) := by
  by_cases hatt : s.attached = true
  · exact Or.inl (attachMouse_of_attached ht s p hatt)
  · have hidle : s.attached = false := by simpa using hatt
    by_cases hc : ∃ c ∈ s.circles, ht.circle s.world c p = true
    · obtain ⟨pre, c, post, hs, hpre, hhit⟩ := exists_first_hit (fun c => ht.circle s.world c p) _ hc
      exact Or.inr ⟨hidle, c.body, attachMouse_circle ht s p hidle pre c post hs hpre hhit⟩
    · have hmiss : ∀ c ∈ s.circles, ht.circle s.world c p = false := by
        intro c hcm
        by_contra hne
        exact hc ⟨c, hcm, by simpa using hne⟩
      by_cases hb : ∃ b ∈ s.boxes, ht.box s.world b p = true
      · obtain ⟨pre, b, post, hs, hpre, hhit⟩ := exists_first_hit (fun b => ht.box s.world b p) _ hb
        exact Or.inr ⟨hidle, b.body, attachMouse_box ht s p hidle hmiss pre b post hs hpre hhit⟩
      · have hbm : ∀ b ∈ s.boxes, ht.box s.world b p = false := by
          intro b hbm
          by_contra hne
          exact hb ⟨b, hbm, by simpa using hne⟩
        exact Or.inl (attachMouse_miss ht s p hmiss hbm)

/-- Idle with some shape hit: one `attachTo` ran, on the body of a circle or box. -/
theorem attachMouse_some_hit (ht : HitTest) (s : PencilPhysics) (p : Vec2)
    (hidle : s.attached = false)
    (hhit : (∃ c ∈ s.circles, ht.circle s.world c p = true) ∨
      (∃ b ∈ s.boxes, ht.box s.world b p = true)) :
    ∃ h, s.attachMouse ht p = s.attachTo h p ∧
      ((∃ c ∈ s.circles, c.body = h) ∨ (∃ b ∈ s.boxes, b.body = h)) := by
  by_cases hc : ∃ c ∈ s.circles, ht.circle s.world c p = true
  · obtain ⟨pre, c, post, hs, hpre, hh⟩ := exists_first_hit (fun c => ht.circle s.world c p) _ hc
    exact ⟨c.body, attachMouse_circle ht s p hidle pre c post hs hpre hh,
      Or.inl ⟨c, by simp [hs], rfl⟩⟩
  · have hmiss : ∀ c ∈ s.circles, ht.circle s.world c p = false := by
      intro c hcm
      by_contra hne
      exact hc ⟨c, hcm, by simpa using hne⟩
    have hb : ∃ b ∈ s.boxes, ht.box s.world b p = true := by
      rcases hhit with h | h
      · exact absurd h hc
      · exact h
    obtain ⟨pre, b, post, hs, hpre, hh⟩ := exists_first_hit (fun b => ht.box s.world b p) _ hb
    exact ⟨b.body, attachMouse_box ht s p hidle hmiss pre b post hs hpre hh,
      Or.inr ⟨b, by simp [hs], rfl⟩⟩

/-- What `attachTo` leaves behind: one more joint, with the fixed parameters. -/
theorem attachTo_joints (s : PencilPhysics) (h : Nat) (p : Vec2) :
    (s.attachTo h p).world.joints
      = s.world.joints ++ [⟨s.world.nextJoint, s.walls.body, h, p, true, 100, 2, 1 / 2⟩] := rfl

theorem attachTo_mousejoint (s : PencilPhysics) (h : Nat) (p : Vec2) :
    (s.attachTo h p).mousejoint = some s.world.nextJoint := rfl

/-! ## The drag invariant -/

theorem addCircle_drag (s : PencilPhysics) (rnd : Vec2) :
    (s.addCircle rnd).2.world.joints = s.world.joints ∧
    (s.addCircle rnd).2.attached = s.attached ∧
    (s.addCircle rnd).2.mousejoint = s.mousejoint := by
  norm_num [addCircle, Circle.spawn, b2World.CreateBody]

theorem addBox_drag (s : PencilPhysics) (rnd : Vec2) :
    (s.addBox rnd).2.world.joints = s.world.joints ∧
    (s.addBox rnd).2.attached = s.attached ∧
    (s.addBox rnd).2.mousejoint = s.mousejoint := by
  norm_num [addBox, Box.spawn, b2World.CreateBody]

theorem addPolyline_drag (s : PencilPhysics) (vs : List Vec2) :
    (s.addPolyline vs).2.world.joints = s.world.joints ∧
    (s.addPolyline vs).2.attached = s.attached ∧
    (s.addPolyline vs).2.mousejoint = s.mousejoint := by
  unfold addPolyline Polyline.spawn
  split_ifs <;> simp [b2World.CreateBody]

theorem DragInv_of_eq {s t : PencilPhysics} (h : DragInv s)
    (hj : t.world.joints = s.world.joints) (ha : t.attached = s.attached)
    (hm : t.mousejoint = s.mousejoint) : DragInv t := by
  unfold DragInv at *
  rw [hj, ha, hm]
  exact h

theorem DragInv_attachMouse (ht : HitTest) (s : PencilPhysics) (p : Vec2) (h : DragInv s) :
    DragInv (s.attachMouse ht p) := by
  rcases attachMouse_cases ht s p with heq | ⟨hidle, b, heq⟩
  · rw [heq]; exact h
  · rw [heq]
    rcases h with ⟨_, hj⟩ | ⟨ha, _⟩
    · refine Or.inr ⟨rfl, ⟨s.world.nextJoint, s.walls.body, b, p, true, 100, 2, 1 / 2⟩, ?_, rfl⟩
      rw [attachTo_joints, hj]
      rfl
    · rw [hidle] at ha
      exact absurd ha (by decide)

/-- On a live handle `SetTarget` is defined and rewrites the target of that joint. -/
theorem SetTarget_live (w : b2World) (k : Nat) (j : b2MouseJoint) (p : Vec2)
    (h : w.joint? k = some j) :
    w.SetTarget (some k) p = some { w with
      joints := w.joints.map (fun j => if j.id = k then { j with target := p } else j) } := by
  simp [b2World.SetTarget, h]

/-- On a live handle `DestroyJoint` is defined and removes that joint. -/
theorem DestroyJoint_live (w : b2World) (k : Nat) (j : b2MouseJoint)
    (h : w.joint? k = some j) :
    w.DestroyJoint (some k) = some { w with joints := w.joints.filter (fun j => j.id ≠ k) } := by
  simp [b2World.DestroyJoint, h]

/-- Under the drag invariant the handle in `mousejoint` is live while dragging. -/
theorem DragInv_live {s : PencilPhysics} (h : DragInv s) (ha : s.attached = true) :
    ∃ j, s.world.joints = [j] ∧ s.mousejoint = some j.id ∧ s.world.joint? j.id = some j := by
  rcases h with ⟨hi, _⟩ | ⟨_, j, hj, hm⟩
  · rw [hi] at ha
    exact absurd ha (by decide)
  · exact ⟨j, hj, hm, by simp [b2World.joint?, hj]⟩

/-- What a defined `moveMouse` returns. -/
theorem moveMouse_some (s : PencilPhysics) (p : Vec2) (t : PencilPhysics)
    (h : s.moveMouse p = some t) :
    (s.attached = false ∧ t = s) ∨
    (s.attached = true ∧ ∃ k j, s.mousejoint = some k ∧ s.world.joint? k = some j ∧
      t = { s with world := { s.world with
        joints := s.world.joints.map (fun j => if j.id = k then { j with target := p } else j) } }) := by
  by_cases ha : s.attached = true
  · right
    refine ⟨ha, ?_⟩
    cases hm : s.mousejoint with
    | none => simp [moveMouse, ha, hm, b2World.SetTarget] at h
    | some k =>
      cases hj : s.world.joint? k with
      | none => simp [moveMouse, ha, hm, b2World.SetTarget, hj] at h
      | some j =>
        refine ⟨k, j, rfl, hj, ?_⟩
        simp only [moveMouse, ha, if_true, hm, SetTarget_live s.world k j p hj,
          Option.some.injEq] at h
        rw [← h]
        simp [ha, hm]
  · left
    have hi : s.attached = false := by simpa using ha
    simp only [moveMouse, hi, Bool.false_eq_true, if_false, Option.some.injEq] at h
    exact ⟨hi, h.symm⟩

/-- What a defined `detachMouse` returns. -/
theorem detachMouse_some (s : PencilPhysics) (t : PencilPhysics) (h : s.detachMouse = some t) :
    (s.attached = false ∧ t = s) ∨
    (s.attached = true ∧ ∃ k j, s.mousejoint = some k ∧ s.world.joint? k = some j ∧
      t = { s with
        world := { s.world with joints := s.world.joints.filter (fun j => j.id ≠ k) },
        mousejoint := none, attached := false }) := by
  by_cases ha : s.attached = true
  · right
    refine ⟨ha, ?_⟩
    cases hm : s.mousejoint with
    | none => simp [detachMouse, ha, hm, b2World.DestroyJoint] at h
    | some k =>
      cases hj : s.world.joint? k with
      | none => simp [detachMouse, ha, hm, b2World.DestroyJoint, hj] at h
      | some j =>
        refine ⟨k, j, rfl, hj, ?_⟩
        simp only [detachMouse, ha, if_true, hm, DestroyJoint_live s.world k j hj,
          Option.some.injEq] at h
        rw [← h]
  · left
    have hi : s.attached = false := by simpa using ha
    simp only [detachMouse, hi, Bool.false_eq_true, if_false, Option.some.injEq] at h
    exact ⟨hi, h.symm⟩

/-- With a live handle, or while idle, `moveMouse` is defined. -/
theorem moveMouse_defined (s : PencilPhysics) (p : Vec2)
    (h : s.attached = false ∨ ∃ k j, s.mousejoint = some k ∧ s.world.joint? k = some j) :
    ∃ t, s.moveMouse p = some t := by
  by_cases ha : s.attached = true
  · rcases h with hi | ⟨k, j, hm, hj⟩
    · rw [hi] at ha
      exact absurd ha (by decide)
    · simp only [moveMouse, ha, if_true, hm, SetTarget_live s.world k j p hj]
      exact ⟨_, rfl⟩
  · exact ⟨s, by simp [moveMouse, ha]⟩

/-- With a live handle, or while idle, `detachMouse` is defined. -/
theorem detachMouse_defined (s : PencilPhysics)
    (h : s.attached = false ∨ ∃ k j, s.mousejoint = some k ∧ s.world.joint? k = some j) :
    ∃ t, s.detachMouse = some t := by
  by_cases ha : s.attached = true
  · rcases h with hi | ⟨k, j, hm, hj⟩
    · rw [hi] at ha
      exact absurd ha (by decide)
    · simp only [detachMouse, ha, if_true, hm, DestroyJoint_live s.world k j hj]
      exact ⟨_, rfl⟩
  · exact ⟨s, by simp [detachMouse, ha]⟩

/-- The drag invariant makes the handle live or the session idle. -/
theorem DragInv_handle {s : PencilPhysics} (h : DragInv s) :
    s.attached = false ∨ ∃ k j, s.mousejoint = some k ∧ s.world.joint? k = some j := by
  by_cases ha : s.attached = true
  · obtain ⟨j, _, hm, hj⟩ := DragInv_live h ha
    exact Or.inr ⟨j.id, j, hm, hj⟩
  · exact Or.inl (by simpa using ha)

theorem DragInv_moveMouse (s : PencilPhysics) (p : Vec2) (h : DragInv s) :
    ∃ t, s.moveMouse p = some t ∧ DragInv t := by
  obtain ⟨t, ht⟩ := moveMouse_defined s p (DragInv_handle h)
  refine ⟨t, ht, ?_⟩
  rcases moveMouse_some s p t ht with ⟨_, rfl⟩ | ⟨ha, k, j0, hm, _, rfl⟩
  · exact h
  · obtain ⟨j, hj, hm2, _⟩ := DragInv_live h ha
    have hk : k = j.id := by
      rw [hm] at hm2
      exact Option.some.inj hm2
    subst hk
    exact Or.inr ⟨ha, { j with target := p }, by simp [hj], hm⟩

theorem detachMouse_joints (s : PencilPhysics) (h : DragInv s) :
    ∃ t, s.detachMouse = some t ∧ t.attached = false ∧ t.world.joints = [] := by
  obtain ⟨t, ht⟩ := detachMouse_defined s (DragInv_handle h)
  refine ⟨t, ht, ?_⟩
  rcases detachMouse_some s t ht with ⟨hi, rfl⟩ | ⟨ha, k, j0, hm, _, rfl⟩
  · rcases h with ⟨_, hj⟩ | ⟨ha, _⟩
    · exact ⟨hi, hj⟩
    · rw [hi] at ha
      exact absurd ha (by decide)
  · obtain ⟨j, hj, hm2, _⟩ := DragInv_live h ha
    have hk : k = j.id := by
      rw [hm] at hm2
      exact Option.some.inj hm2
    subst hk
    exact ⟨rfl, by simp [hj]⟩

theorem DragInv_step (ht : HitTest) (s : PencilPhysics) (op : Op) (hop : op ≠ Op.clear)
    (h : DragInv s) : ∃ t, step ht s op = some t ∧ DragInv t := by
  cases op with
  | addCircle rnd =>
    obtain ⟨hj, ha, hm⟩ := addCircle_drag s rnd
    exact ⟨_, rfl, DragInv_of_eq h hj ha hm⟩
  | addBox rnd =>
    obtain ⟨hj, ha, hm⟩ := addBox_drag s rnd
    exact ⟨_, rfl, DragInv_of_eq h hj ha hm⟩
  | addPolyline vs =>
    obtain ⟨hj, ha, hm⟩ := addPolyline_drag s vs
    exact ⟨_, rfl, DragInv_of_eq h hj ha hm⟩
  | clear => exact absurd rfl hop
  | attachMouse p => exact ⟨_, rfl, DragInv_attachMouse ht s p h⟩
  | moveMouse p => exact DragInv_moveMouse s p h
  | detachMouse =>
    obtain ⟨t, ht, hd⟩ := detachMouse_joints s h
    exact ⟨t, ht, Or.inl hd⟩

theorem DragInv_run (ht : HitTest) (ops : List Op) (hops : ∀ op ∈ ops, op ≠ Op.clear) :
    ∀ s, DragInv s → ∃ t, run ht s ops = some t ∧ DragInv t := by
  induction ops with
  | nil => intro s h; exact ⟨s, rfl, h⟩
  | cons op rest ih =>
    intro s h
    have hrest : ∀ o ∈ rest, o ≠ Op.clear := fun o ho => hops o (by simp [ho])
    obtain ⟨t, ht1, hinv⟩ := DragInv_step ht s op (hops op (by simp)) h
    obtain ⟨u, hu, hinvu⟩ := ih hrest t hinv
    exact ⟨u, by simp only [run, ht1, hu], hinvu⟩

theorem DragInv_create : DragInv create := Or.inl (by decide!)

theorem DragInv_length {s : PencilPhysics} (h : DragInv s) : s.world.joints.length ≤ 1 := by
  rcases h with ⟨_, hj⟩ | ⟨_, j, hj, _⟩ <;> simp [hj]

/-! ## Claims on the drag state machine -/

/-- C1: in every state reached from the constructed session by `addCircle`, `addBox`,
`addPolyline`, `attachMouse`, `moveMouse` and `detachMouse` the world holds at
most one joint; it holds exactly one right after an `attachMouse` issued while
idle at a point some circle or box contains, and none right after
`detachMouse`. -/
theorem drag_joint_count (ht : HitTest) (ops : List Op) (hops : ∀ op ∈ ops, op ≠ Op.clear) :
    ∃ s, run ht create ops = some s ∧
      s.world.joints.length ≤ 1 ∧
      (∀ p, s.attached = false →
        ((∃ c ∈ s.circles, ht.circle s.world c p = true) ∨
          (∃ b ∈ s.boxes, ht.box s.world b p = true)) →
        (s.attachMouse ht p).world.joints.length = 1) ∧
      ∃ t, s.detachMouse = some t ∧ t.world.joints.length = 0 := by
  obtain ⟨s, hrun, hinv⟩ := DragInv_run ht ops hops create DragInv_create
  refine ⟨s, hrun, DragInv_length hinv, ?_, ?_⟩
  · intro p hidle hhit
    obtain ⟨b, heq, _⟩ := attachMouse_some_hit ht _ p hidle hhit
    rcases hinv with ⟨_, hj⟩ | ⟨ha, _⟩
    · rw [heq, attachTo_joints, hj]; rfl
    · rw [hidle] at ha
      exact absurd ha (by decide)
  · obtain ⟨t, ht1, _, hj⟩ := detachMouse_joints s hinv
    exact ⟨t, ht1, by rw [hj]; rfl⟩

/-- Witness for C1: after one `addCircle` (and a release while idle) the session is
`circleScene`; pressing at the circle centre leaves one joint, and releasing
leaves none. -/
theorem drag_joint_count_witness :
    (∀ op ∈ [Op.addCircle ⟨0, 0⟩, Op.detachMouse], op ≠ Op.clear) ∧
    run HitTest.atRest create [Op.addCircle ⟨0, 0⟩, Op.detachMouse] = some circleScene ∧
    circleScene.attached = false ∧
    (∃ c ∈ circleScene.circles, HitTest.atRest.circle circleScene.world c ⟨-5, 7⟩ = true) ∧
    (circleScene.attachMouse HitTest.atRest ⟨-5, 7⟩).world.joints.length = 1 ∧
    (∃ t, circleScene.detachMouse = some t ∧ t.world.joints.length = 0) := by
  obtain ⟨s, hs, _, hatt, hdet⟩ :=
    drag_joint_count HitTest.atRest [Op.addCircle ⟨0, 0⟩, Op.detachMouse] (by decide)
  have hrun : run HitTest.atRest create [Op.addCircle ⟨0, 0⟩, Op.detachMouse]
      = some circleScene := by decide!
  rw [hrun] at hs
  obtain rfl := Option.some.inj hs
  exact ⟨by decide, hrun, by decide!, ⟨⟨⟨-5, 7⟩, 1 / 2, 3⟩, by decide!, by decide!⟩,
    hatt ⟨-5, 7⟩ (by decide!) (Or.inl ⟨⟨⟨-5, 7⟩, 1 / 2, 3⟩, by decide!, by decide!⟩), hdet⟩

/-- C2: while idle, `attachMouse` attaches to the first circle (in insertion order)
that contains the point, whatever the boxes do; with no circle hit it attaches
to the first box that contains the point; with nothing hit it changes nothing.
A hit appends exactly one joint, which `mousejoint` then refers to. -/
theorem attachMouse_selects_first (ht : HitTest) (s : PencilPhysics) (p : Vec2)
    (hidle : s.attached = false) :
    (∀ pre c post, s.circles = pre ++ c :: post →
      (∀ a ∈ pre, ht.circle s.world a p = false) → ht.circle s.world c p = true →
      ∃ j, (s.attachMouse ht p).world.joints = s.world.joints ++ [j] ∧ j.bodyB = c.body ∧
        (s.attachMouse ht p).mousejoint = some j.id ∧ (s.attachMouse ht p).attached = true) ∧
    ((∀ c ∈ s.circles, ht.circle s.world c p = false) →
      ∀ pre b post, s.boxes = pre ++ b :: post →
      (∀ a ∈ pre, ht.box s.world a p = false) → ht.box s.world b p = true →
      ∃ j, (s.attachMouse ht p).world.joints = s.world.joints ++ [j] ∧ j.bodyB = b.body ∧
        (s.attachMouse ht p).mousejoint = some j.id ∧ (s.attachMouse ht p).attached = true) ∧
    ((∀ c ∈ s.circles, ht.circle s.world c p = false) →
      (∀ b ∈ s.boxes, ht.box s.world b p = false) → s.attachMouse ht p = s) := by
  refine ⟨?_, ?_, ?_⟩
  · intro pre c post hs hpre hc
    rw [attachMouse_circle ht s p hidle pre c post hs hpre hc]
    exact ⟨_, attachTo_joints s c.body p, rfl, rfl, rfl⟩
  · intro hmiss pre b post hs hpre hb
    rw [attachMouse_box ht s p hidle hmiss pre b post hs hpre hb]
    exact ⟨_, attachTo_joints s b.body p, rfl, rfl, rfl⟩
  · intro hc hb
    exact attachMouse_miss ht s p hc hb

/-- Witness for C2: in `overlapScene` the point `(-5,7)` lies in the circle (body 3)
and in the box (body 4); the joint goes to the circle. -/
theorem attachMouse_selects_first_witness :
    overlapScene.attached = false ∧
    overlapScene.circles = [] ++ (⟨⟨-5, 7⟩, 1 / 2, 3⟩ : Circle) :: [] ∧
    (∃ b ∈ overlapScene.boxes, b.body = 4 ∧
      HitTest.atRest.box overlapScene.world b ⟨-5, 7⟩ = true) ∧
    (∃ j, (overlapScene.attachMouse HitTest.atRest ⟨-5, 7⟩).world.joints
        = overlapScene.world.joints ++ [j] ∧ j.bodyB = 3 ∧
      (overlapScene.attachMouse HitTest.atRest ⟨-5, 7⟩).mousejoint = some j.id ∧
      (overlapScene.attachMouse HitTest.atRest ⟨-5, 7⟩).attached = true) :=
  ⟨by decide!, by decide!, ⟨⟨⟨-5, 7⟩, ⟨12 / 10, 6 / 10⟩, 4⟩, by decide!, rfl, by decide!⟩,
    (attachMouse_selects_first HitTest.atRest overlapScene ⟨-5, 7⟩ (by decide!)).1
      [] ⟨⟨-5, 7⟩, 1 / 2, 3⟩ [] (by decide!) (by simp) (by decide!)⟩

/-- C5: `moveMouse` and `detachMouse` while idle are defined and return the state
they were given, so a second `detachMouse` changes nothing; `attachMouse` while
dragging returns the state it was given, wherever the point lies. -/
theorem undefined_transitions_are_noops (ht : HitTest) (s : PencilPhysics) (p : Vec2) :
    (s.attached = false → s.moveMouse p = some s ∧ s.detachMouse = some s) ∧
    s.detachMouse.bind detachMouse = s.detachMouse ∧
    (∀ t, s.detachMouse = some t → t.detachMouse = some t) ∧
    (s.attached = true → s.attachMouse ht p = s) := by
  have hidem : ∀ t, s.detachMouse = some t → t.detachMouse = some t := by
    intro t ht1
    have hidle : t.attached = false := by
      rcases detachMouse_some s t ht1 with ⟨hi, rfl⟩ | ⟨_, k, j, _, _, rfl⟩
      · exact hi
      · rfl
    simp [detachMouse, hidle]
  refine ⟨?_, ?_, hidem, ?_⟩
  · intro h
    simp [moveMouse, detachMouse, h]
  · cases hd : s.detachMouse with
    | none => rfl
    | some t => exact hidem t hd
  · intro h
    exact attachMouse_of_attached ht s p h

/-- Witness for C5: idle `overlapScene` ignores move and release; `draggingScene`
ignores a press at `(-5, 7.55)`, a point inside the box and outside the dragged
circle. -/
theorem undefined_transitions_are_noops_witness :
    (overlapScene.attached = false ∧
      overlapScene.moveMouse ⟨1, 1⟩ = some overlapScene ∧
      overlapScene.detachMouse = some overlapScene) ∧
    (draggingScene.attached = true ∧
      (∃ b ∈ draggingScene.boxes, HitTest.atRest.box draggingScene.world b ⟨-5, 151 / 20⟩ = true) ∧
      (∀ c ∈ draggingScene.circles,
        HitTest.atRest.circle draggingScene.world c ⟨-5, 151 / 20⟩ = false) ∧
      draggingScene.attachMouse HitTest.atRest ⟨-5, 151 / 20⟩ = draggingScene) :=
  ⟨⟨by decide!,
      (undefined_transitions_are_noops HitTest.atRest overlapScene ⟨1, 1⟩).1 (by decide!)⟩,
    by decide!, by decide!, by decide!,
    (undefined_transitions_are_noops HitTest.atRest draggingScene ⟨-5, 151 / 20⟩).2.2.2
      (by decide!)⟩

theorem SceneFrame_attachMouse (ht : HitTest) (s : PencilPhysics) (p : Vec2) :
    SceneFrame s (s.attachMouse ht p) := by
  rcases attachMouse_cases ht s p with heq | ⟨_, b, heq⟩
  · rw [heq]; simp [SceneFrame]
  · rw [heq]; simp [SceneFrame, attachTo, b2World.CreateJoint]

theorem SceneFrame_moveMouse (s : PencilPhysics) (p : Vec2) (t : PencilPhysics)
    (h : s.moveMouse p = some t) : SceneFrame s t := by
  rcases moveMouse_some s p t h with ⟨_, rfl⟩ | ⟨_, k, j, _, _, rfl⟩ <;> simp [SceneFrame]

theorem SceneFrame_detachMouse (s : PencilPhysics) (t : PencilPhysics)
    (h : s.detachMouse = some t) : SceneFrame s t := by
  rcases detachMouse_some s t h with ⟨_, rfl⟩ | ⟨_, k, j, _, _, rfl⟩ <;> simp [SceneFrame]

/-- C7: while idle, at a point some circle or box contains, `attachMouse` creates a
joint whose `bodyA` is the body of `walls`, whose `bodyB` is the body of a
circle or box of the scene, whose target is the point, with `collideConnected`
set, `maxForce` 100, `frequencyHz` 2 and `dampingRatio` 1/2, the same for a
circle and for a box. -/
theorem attachMouse_joint_parameters (ht : HitTest) (s : PencilPhysics) (p : Vec2)
    (hidle : s.attached = false)
    (hhit : (∃ c ∈ s.circles, ht.circle s.world c p = true) ∨
      (∃ b ∈ s.boxes, ht.box s.world b p = true)) :
    ∃ bodyB, ((∃ c ∈ s.circles, c.body = bodyB) ∨ (∃ b ∈ s.boxes, b.body = bodyB)) ∧
      (s.attachMouse ht p).world.joints
        = s.world.joints ++ [⟨s.world.nextJoint, s.walls.body, bodyB, p, true, 100, 2, 1 / 2⟩] ∧
      (s.attachMouse ht p).mousejoint = some s.world.nextJoint := by
  obtain ⟨h, heq, hmem⟩ := attachMouse_some_hit ht s p hidle hhit
  exact ⟨h, hmem, by rw [heq, attachTo_joints], by rw [heq, attachTo_mousejoint]⟩

/-- Witness for C7: a press at `(-5, 7.55)` in `overlapScene` hits only the box. -/
theorem attachMouse_joint_parameters_witness :
    overlapScene.attached = false ∧
    (∃ b ∈ overlapScene.boxes, HitTest.atRest.box overlapScene.world b ⟨-5, 151 / 20⟩ = true) ∧
    (∃ bodyB, ((∃ c ∈ overlapScene.circles, c.body = bodyB) ∨
        (∃ b ∈ overlapScene.boxes, b.body = bodyB)) ∧
      (overlapScene.attachMouse HitTest.atRest ⟨-5, 151 / 20⟩).world.joints
        = overlapScene.world.joints ++
          [⟨overlapScene.world.nextJoint, overlapScene.walls.body, bodyB, ⟨-5, 151 / 20⟩,
            true, 100, 2, 1 / 2⟩] ∧
      (overlapScene.attachMouse HitTest.atRest ⟨-5, 151 / 20⟩).mousejoint
        = some overlapScene.world.nextJoint) :=
  ⟨by decide!, by decide!,
    attachMouse_joint_parameters HitTest.atRest overlapScene ⟨-5, 151 / 20⟩ (by decide!)
      (Or.inr (by decide!))⟩

/-! ## Clearing the scene -/

theorem clearCircles_eq (cs : List Circle) (i : Nat) (acc : b2World × List LifeEvent) :
    clearCircles cs i acc
      = ((cs.map (fun c => c.body)).foldl b2World.DestroyBody acc.1,
         acc.2 ++ (List.range' i cs.length).map (LifeEvent.destroy Coll.circles)) := by
  induction cs generalizing i acc with
  | nil => simp [clearCircles]
  | cons c rest ih => simp [clearCircles, ih, Circle.destroy, List.range'_succ]

theorem clearBoxes_eq (bs : List Box) (i : Nat) (acc : b2World × List LifeEvent) :
    clearBoxes bs i acc
      = ((bs.map (fun b => b.body)).foldl b2World.DestroyBody acc.1,
         acc.2 ++ (List.range' i bs.length).map (LifeEvent.destroy Coll.boxes)) := by
  induction bs generalizing i acc with
  | nil => simp [clearBoxes]
  | cons b rest ih => simp [clearBoxes, ih, Box.destroy, List.range'_succ]

theorem clearPolylines_eq (ps : List Polyline) (i : Nat) (acc : b2World × List LifeEvent) :
    clearPolylines ps i acc
      = ((ps.map (fun p => p.body)).foldl b2World.DestroyBody acc.1,
         acc.2 ++ (List.range' i ps.length).map (LifeEvent.destroy Coll.polylines)) := by
  induction ps generalizing i acc with
  | nil => simp [clearPolylines]
  | cons p rest ih => simp [clearPolylines, ih, Polyline.destroy, List.range'_succ]

theorem foldl_DestroyBody_bodies (hs : List Nat) (w : b2World) :
    (hs.foldl b2World.DestroyBody w).bodies = w.bodies.filter (fun b => decide (b.id ∉ hs)) := by
  induction hs generalizing w with
  | nil => simp
  | cons h rest ih =>
    simp only [List.foldl_cons, ih, b2World.DestroyBody, List.filter_filter]
    congr 1
    funext b
    by_cases hb : b.id = h <;> simp [hb]

theorem clear_world (s : PencilPhysics) :
    s.clear.2.world = (dynamicHandles s).foldl b2World.DestroyBody s.world := by
  simp [clear, clearCircles_eq, clearBoxes_eq, clearPolylines_eq, dynamicHandles, List.foldl_append]

theorem clear_events (s : PencilPhysics) :
    s.clear.1 =
      (List.range s.circles.length).map (LifeEvent.destroy Coll.circles)
        ++ [LifeEvent.emptied Coll.circles]
        ++ (List.range s.boxes.length).map (LifeEvent.destroy Coll.boxes)
        ++ [LifeEvent.emptied Coll.boxes]
        ++ (List.range s.polylines.length).map (LifeEvent.destroy Coll.polylines)
        ++ [LifeEvent.emptied Coll.polylines] := by
  simp [clear, clearCircles_eq, clearBoxes_eq, clearPolylines_eq, List.range_eq_range']

theorem clear_bodies (s : PencilPhysics) :
    s.clear.2.world.bodies
      = s.world.bodies.filter (fun b => decide (b.id ∉ dynamicHandles s)) := by
  rw [clear_world, foldl_DestroyBody_bodies]

theorem foldl_DestroyBody_nextBody (hs : List Nat) (w : b2World) :
    (hs.foldl b2World.DestroyBody w).nextBody = w.nextBody := by
  induction hs generalizing w with
  | nil => rfl
  | cons h rest ih => simp [ih, b2World.DestroyBody]

/-! ## Static bodies stay apart from spawned ones -/

theorem StaticInv_create : StaticInv create := by
  refine ⟨by decide!, by decide!, by decide!, by decide!, by decide!, by decide!, by decide!, ?_⟩
  intro h hh
  have : dynamicHandles create = [] := by decide!
  rw [this] at hh
  simp at hh

theorem StaticInv_of_frame {s t : PencilPhysics} (h : StaticInv s) (hf : SceneFrame s t) :
    StaticInv t := by
  obtain ⟨hc, hb, hp, hw, hr, hwb, _, _, hbod, _, hnb⟩ := hf
  unfold StaticInv dynamicHandles at *
  rw [hc, hb, hp, hw, hr, hwb, hbod, hnb]
  exact h

theorem StaticInv_addCircle (s : PencilPhysics) (rnd : Vec2) (h : StaticInv s) :
    StaticInv (s.addCircle rnd).2 := by
  obtain ⟨h0, h1, h2, m0, m1, m2, hn, hd⟩ := h
  have key : (s.addCircle rnd).2 = { s with
      world := (s.world.CreateBody false).2,
      circles := s.circles ++ [⟨Vec2.add ⟨-5, 7⟩ (Vec2.scale (1 / 2) rnd), 1 / 2,
        s.world.nextBody⟩] } := by
    norm_num [addCircle, Circle.spawn, b2World.CreateBody]
  rw [key]
  refine ⟨h0, h1, h2, ?_, ?_, ?_, ?_, ?_⟩
  · simp [b2World.CreateBody, m0]
  · simp [b2World.CreateBody, m1]
  · simp [b2World.CreateBody, m2]
  · simp only [b2World.CreateBody]; omega
  · intro x hx
    simp only [dynamicHandles, List.map_append, List.mem_append, List.map_cons, List.map_nil,
      List.mem_singleton] at hx
    rcases hx with (((hx | hx) | hx) | hx)
    · exact hd x (by simp [dynamicHandles, hx])
    · omega
    · exact hd x (by simp only [dynamicHandles, List.mem_append]; exact Or.inl (Or.inr hx))
    · exact hd x (by simp only [dynamicHandles, List.mem_append]; exact Or.inr hx)

theorem StaticInv_addBox (s : PencilPhysics) (rnd : Vec2) (h : StaticInv s) :
    StaticInv (s.addBox rnd).2 := by
  obtain ⟨h0, h1, h2, m0, m1, m2, hn, hd⟩ := h
  have key : (s.addBox rnd).2 = { s with
      world := (s.world.CreateBody false).2,
      boxes := s.boxes ++ [⟨Vec2.add ⟨-5, 7⟩ (Vec2.scale (1 / 2) rnd), ⟨12 / 10, 6 / 10⟩,
        s.world.nextBody⟩] } := by
    norm_num [addBox, Box.spawn, b2World.CreateBody]
  rw [key]
  refine ⟨h0, h1, h2, ?_, ?_, ?_, ?_, ?_⟩
  · simp [b2World.CreateBody, m0]
  · simp [b2World.CreateBody, m1]
  · simp [b2World.CreateBody, m2]
  · simp only [b2World.CreateBody]; omega
  · intro x hx
    simp only [dynamicHandles, List.map_append, List.mem_append, List.map_cons, List.map_nil,
      List.mem_singleton] at hx
    rcases hx with ((hx | (hx | hx)) | hx)
    · exact hd x (by simp only [dynamicHandles, List.mem_append]; exact Or.inl (Or.inl hx))
    · exact hd x (by simp only [dynamicHandles, List.mem_append]; exact Or.inl (Or.inr hx))
    · omega
    · exact hd x (by simp only [dynamicHandles, List.mem_append]; exact Or.inr hx)

theorem StaticInv_addPolyline (s : PencilPhysics) (vs : List Vec2) (h : StaticInv s) :
    StaticInv (s.addPolyline vs).2 := by
  by_cases hlen : vs.length < 2
  · have key : (s.addPolyline vs).2 = s := by simp [addPolyline, Polyline.spawn, hlen]
    rw [key]; exact h
  · obtain ⟨h0, h1, h2, m0, m1, m2, hn, hd⟩ := h
    have key : (s.addPolyline vs).2 = { s with
        world := (s.world.CreateBody true).2,
        polylines := s.polylines ++ [⟨vs, s.world.nextBody⟩] } := by
      simp [addPolyline, Polyline.spawn, hlen, b2World.CreateBody]
    rw [key]
    refine ⟨h0, h1, h2, ?_, ?_, ?_, ?_, ?_⟩
    · simp [b2World.CreateBody, m0]
    · simp [b2World.CreateBody, m1]
    · simp [b2World.CreateBody, m2]
    · simp only [b2World.CreateBody]; omega
    · intro x hx
      simp only [dynamicHandles, List.map_append, List.mem_append, List.map_cons, List.map_nil,
        List.mem_singleton] at hx
      rcases hx with ((hx | hx) | (hx | hx))
      · exact hd x (by simp only [dynamicHandles, List.mem_append]; exact Or.inl (Or.inl hx))
      · exact hd x (by simp only [dynamicHandles, List.mem_append]; exact Or.inl (Or.inr hx))
      · exact hd x (by simp only [dynamicHandles, List.mem_append]; exact Or.inr hx)
      · omega

/-- After `clear()` the static bodies are still registered. -/
theorem clear_keeps_statics (s : PencilPhysics) (h : StaticInv s) :
    (⟨0, true⟩ : b2Body) ∈ s.clear.2.world.bodies ∧ (⟨1, true⟩ : b2Body) ∈ s.clear.2.world.bodies ∧
    (⟨2, true⟩ : b2Body) ∈ s.clear.2.world.bodies := by
  obtain ⟨_, _, _, m0, m1, m2, _, hd⟩ := h
  rw [clear_bodies]
  refine ⟨?_, ?_, ?_⟩
  · refine List.mem_filter.mpr ⟨m0, ?_⟩
    simp only [decide_eq_true_eq]
    intro hmem
    exact absurd (hd 0 hmem) (by decide)
  · refine List.mem_filter.mpr ⟨m1, ?_⟩
    simp only [decide_eq_true_eq]
    intro hmem
    exact absurd (hd 1 hmem) (by decide)
  · refine List.mem_filter.mpr ⟨m2, ?_⟩
    simp only [decide_eq_true_eq]
    intro hmem
    exact absurd (hd 2 hmem) (by decide)

theorem StaticInv_clear (s : PencilPhysics) (h : StaticInv s) : StaticInv s.clear.2 := by
  obtain ⟨m0, m1, m2⟩ := clear_keeps_statics s h
  obtain ⟨h0, h1, h2, _, _, _, hn, _⟩ := h
  refine ⟨h0, h1, h2, m0, m1, m2, ?_, ?_⟩
  · rw [clear_world, foldl_DestroyBody_nextBody]; exact hn
  · intro x hx
    have : dynamicHandles s.clear.2 = [] := rfl
    rw [this] at hx
    simp at hx

theorem StaticInv_step (ht : HitTest) (s : PencilPhysics) (op : Op) (h : StaticInv s)
    (t : PencilPhysics) (hstep : step ht s op = some t) : StaticInv t := by
  cases op with
  | addCircle rnd =>
    obtain rfl := Option.some.inj hstep
    exact StaticInv_addCircle s rnd h
  | addBox rnd =>
    obtain rfl := Option.some.inj hstep
    exact StaticInv_addBox s rnd h
  | addPolyline vs =>
    obtain rfl := Option.some.inj hstep
    exact StaticInv_addPolyline s vs h
  | clear =>
    obtain rfl := Option.some.inj hstep
    exact StaticInv_clear s h
  | attachMouse p =>
    obtain rfl := Option.some.inj hstep
    exact StaticInv_of_frame h (SceneFrame_attachMouse ht s p)
  | moveMouse p => exact StaticInv_of_frame h (SceneFrame_moveMouse s p t hstep)
  | detachMouse => exact StaticInv_of_frame h (SceneFrame_detachMouse s t hstep)

theorem StaticInv_run (ht : HitTest) (ops : List Op) :
    ∀ s t, StaticInv s → run ht s ops = some t → StaticInv t := by
  induction ops with
  | nil =>
    intro s t h hrun
    obtain rfl := Option.some.inj hrun
    exact h
  | cons op rest ih =>
    intro s t h hrun
    cases hstep : step ht s op with
    | none => simp [run, hstep] at hrun
    | some u =>
      simp only [run, hstep] at hrun
      exact ih u t (StaticInv_step ht s op h u hstep) hrun

/-! ## Claims on clearing, drawing and construction -/

/-- C3: evaluation of `clear()` during a drag.  With a circle spawned and grabbed
(`grabbedScene`: joint 0 on the circle body 3), `clear()` destroys the circle
and empties the collections, the world drops the joint together with the body,
and yet `attached` stays set and `mousejoint` keeps the handle of the joint
that is gone; a following `moveMouse` or `detachMouse` is undefined. -/
theorem clear_while_dragging_keeps_drag :
    run HitTest.atRest create [Op.addCircle ⟨0, 0⟩, Op.attachMouse ⟨-5, 7⟩, Op.clear]
      = some clearedWhileDragging ∧
    clearedWhileDragging.attached = true ∧ clearedWhileDragging.mousejoint = some 0 ∧
    clearedWhileDragging.circles = [] ∧ clearedWhileDragging.boxes = [] ∧
    clearedWhileDragging.world.joint? 0 = none ∧
    clearedWhileDragging.world.joints = [] ∧
    run HitTest.atRest create [Op.addCircle ⟨0, 0⟩, Op.attachMouse ⟨-5, 7⟩] = some grabbedScene ∧
    grabbedScene.world.joint? 0 = some ⟨0, 0, 3, ⟨-5, 7⟩, true, 100, 2, 1 / 2⟩ ∧
    grabbedScene.circles = [⟨⟨-5, 7⟩, 1 / 2, 3⟩] ∧
    clearedWhileDragging.moveMouse ⟨1, 4⟩ = none ∧
    clearedWhileDragging.detachMouse = none := by
  refine ⟨?_, ?_, ?_, ?_, ?_, ?_, ?_, ?_, ?_, ?_, ?_, ?_⟩ <;> decide!

/-- C4: after `clear()` the three collections are empty; `destroy()` ran once on every
element of a collection, in index order, before that collection was emptied;
`walls`, `redCircle` and `whiteBox` are the same bindings; the bodies left in
the world are those no removed binding owned; and in every state reached from
the constructed session the bodies of `walls`, `redCircle` and `whiteBox` are
still registered. -/
theorem clear_spec (s : PencilPhysics) :
    s.clear.2.circles = [] ∧ s.clear.2.boxes = [] ∧ s.clear.2.polylines = [] ∧
    s.clear.1 =
      (List.range s.circles.length).map (LifeEvent.destroy Coll.circles)
        ++ [LifeEvent.emptied Coll.circles]
        ++ (List.range s.boxes.length).map (LifeEvent.destroy Coll.boxes)
        ++ [LifeEvent.emptied Coll.boxes]
        ++ (List.range s.polylines.length).map (LifeEvent.destroy Coll.polylines)
        ++ [LifeEvent.emptied Coll.polylines] ∧
    s.clear.2.world = (dynamicHandles s).foldl b2World.DestroyBody s.world ∧
    s.clear.2.walls = s.walls ∧ s.clear.2.redCircle = s.redCircle ∧
    s.clear.2.whiteBox = s.whiteBox ∧
    s.clear.2.world.bodies
      = s.world.bodies.filter (fun b => decide (b.id ∉ dynamicHandles s)) ∧
    (∀ ht ops, run ht create ops = some s →
      (⟨s.walls.body, true⟩ : b2Body) ∈ s.clear.2.world.bodies ∧
      (⟨s.redCircle.body, true⟩ : b2Body) ∈ s.clear.2.world.bodies ∧
      (⟨s.whiteBox.body, true⟩ : b2Body) ∈ s.clear.2.world.bodies) := by
  refine ⟨rfl, rfl, rfl, clear_events s, clear_world s, rfl, rfl, rfl, clear_bodies s, ?_⟩
  intro ht ops hs
  have hinv : StaticInv s := StaticInv_run ht ops create s StaticInv_create hs
  obtain ⟨m0, m1, m2⟩ := clear_keeps_statics s hinv
  obtain ⟨h0, h1, h2, _⟩ := hinv
  rw [h0, h1, h2]
  exact ⟨m0, m1, m2⟩

/-- Witness for C4: `mixedScene` holds a circle, a box and a polyline (bodies 3, 4, 5);
after `clear()` the bodies 0, 1 and 2 of the static bindings are still there. -/
theorem clear_spec_witness :
    dynamicHandles mixedScene = [3, 4, 5] ∧
    mixedScene.clear.1 =
      [LifeEvent.destroy Coll.circles 0, LifeEvent.emptied Coll.circles,
       LifeEvent.destroy Coll.boxes 0, LifeEvent.emptied Coll.boxes,
       LifeEvent.destroy Coll.polylines 0, LifeEvent.emptied Coll.polylines] ∧
    ((⟨mixedScene.walls.body, true⟩ : b2Body) ∈ mixedScene.clear.2.world.bodies ∧
      (⟨mixedScene.redCircle.body, true⟩ : b2Body) ∈ mixedScene.clear.2.world.bodies ∧
      (⟨mixedScene.whiteBox.body, true⟩ : b2Body) ∈ mixedScene.clear.2.world.bodies) :=
  ⟨by decide!, by decide!,
    (clear_spec mixedScene).2.2.2.2.2.2.2.2.2 HitTest.atRest
      [Op.addCircle ⟨0, 0⟩, Op.addBox ⟨0, 0⟩, Op.addPolyline [⟨0, 1⟩, ⟨1, 1⟩]] (by decide!)⟩

/-- C8 as stated fails: on the freshly constructed session, with no polyline being
sketched, `drawGraphics()` issues no draw call for the vertices of `walls`. -/
theorem drawGraphics_omits_walls :
    ¬ ∃ t col, DrawCall.polyline t create.walls.vertices col ∈ (create.drawGraphics []).1 := by
  have hcalls : (create.drawGraphics []).1
      = [DrawCall.circle .identity ⟨-5, 2⟩ (1 / 2) ⟨1, 0, 0⟩,
         DrawCall.box .identity ⟨5, 2⟩ ⟨9 / 10, 9 / 10⟩ ⟨1, 1, 1⟩] := by decide!
  rw [hcalls]
  simp

/-- C8 amended: `drawGraphics()` issues, in this order, a grey call for the polyline
being sketched when it has two or more vertices, a call for the red circle in
`(1,0,0)`, a call for the white box in `(1,1,1)`, then one call per element of
`circles`, of `boxes` and of `polylines` in collection order, all in `(0,0,0)`;
the colours of the fixed shapes and of the sketch differ from `(0,0,0)`; a
polyline call carrying the vertices of `walls` can only come from the sketch or
from a spawned polyline; the members are left as they were. -/
theorem drawGraphics_calls (s : PencilPhysics) (currentPolyline : List Vec2) :
    (s.drawGraphics currentPolyline).1 =
      (if currentPolyline.length ≥ 2 then
          [DrawCall.polyline .identity currentPolyline ⟨6 / 10, 6 / 10, 6 / 10⟩]
        else [])
        ++ [DrawCall.circle .identity s.redCircle.center s.redCircle.radius ⟨1, 0, 0⟩,
            DrawCall.box .identity s.whiteBox.center s.whiteBox.size ⟨1, 1, 1⟩]
        ++ s.circles.map (fun c => DrawCall.circle (.ofBody c.body) c.center c.radius ⟨0, 0, 0⟩)
        ++ s.boxes.map (fun b => DrawCall.box (.ofBody b.body) b.center b.size ⟨0, 0, 0⟩)
        ++ s.polylines.map (fun p => DrawCall.polyline .identity p.vertices ⟨0, 0, 0⟩) ∧
    (⟨1, 0, 0⟩ : Vec3) ≠ ⟨0, 0, 0⟩ ∧ (⟨1, 1, 1⟩ : Vec3) ≠ ⟨0, 0, 0⟩ ∧
    (⟨6 / 10, 6 / 10, 6 / 10⟩ : Vec3) ≠ ⟨0, 0, 0⟩ ∧
    (∀ t col, DrawCall.polyline t s.walls.vertices col ∈ (s.drawGraphics currentPolyline).1 →
      (currentPolyline = s.walls.vertices ∧ 2 ≤ currentPolyline.length) ∨
      ∃ p ∈ s.polylines, p.vertices = s.walls.vertices) ∧
    (s.drawGraphics currentPolyline).2 = s := by
  refine ⟨rfl, by decide!, by decide!, by decide!, ?_, rfl⟩
  intro t col hmem
  simp only [drawGraphics, List.mem_append, List.mem_map, List.mem_cons] at hmem
  rcases hmem with ((((hmem | hmem) | hmem) | hmem) | hmem)
  · split_ifs at hmem with hlen
    · simp only [List.mem_singleton, DrawCall.polyline.injEq] at hmem
      exact Or.inl ⟨hmem.2.1.symm, hlen⟩
    · simp at hmem
  · simp at hmem
  · obtain ⟨c, _, hc⟩ := hmem
    simp at hc
  · obtain ⟨b, _, hb⟩ := hmem
    simp at hb
  · obtain ⟨p, hp, hpe⟩ := hmem
    simp only [DrawCall.polyline.injEq] at hpe
    exact Or.inr ⟨p, hp, hpe.2.1⟩

/-- Witness for C8 amended: on `mixedScene` with nothing sketched, five calls. -/
theorem drawGraphics_calls_witness :
    (mixedScene.drawGraphics []).1 =
      [DrawCall.circle .identity ⟨-5, 2⟩ (1 / 2) ⟨1, 0, 0⟩,
       DrawCall.box .identity ⟨5, 2⟩ ⟨9 / 10, 9 / 10⟩ ⟨1, 1, 1⟩,
       DrawCall.circle (.ofBody 3) ⟨-5, 7⟩ (1 / 2) ⟨0, 0, 0⟩,
       DrawCall.box (.ofBody 4) ⟨-5, 7⟩ ⟨12 / 10, 6 / 10⟩ ⟨0, 0, 0⟩,
       DrawCall.polyline .identity [⟨0, 1⟩, ⟨1, 1⟩] ⟨0, 0, 0⟩] :=
  ((drawGraphics_calls mixedScene []).1).trans (by decide!)

/-- C9 as stated fails: the walls of the constructed session have three segments, and
none of them lies on the top side `y = 9`. -/
theorem walls_top_side_open :
    ¬ ((segments create.walls.vertices).length = 4) ∧
    ¬ ∃ seg ∈ segments create.walls.vertices, seg.1.y = 9 ∧ seg.2.y = 9 := by
  constructor <;> decide!

/-- C9 amended: `initWorld()` on bounds `(-8,0)` and `(8,9)` returns normally; `walls`
is the polyline `(-8,9), (-8,0), (8,0), (8,9)`, whose three segments are the
left side `x = -8`, the bottom side `y = 0` and the right side `x = 8`; the
drag state is idle. -/
theorem initWorld_walls_and_idle (s : PencilPhysics) (hmin : s.worldMin = ⟨-8, 0⟩)
    (hmax : s.worldMax = ⟨8, 9⟩) :
    s.initWorld.1 = .ok () ∧
    s.initWorld.2.walls.vertices = [⟨-8, 9⟩, ⟨-8, 0⟩, ⟨8, 0⟩, ⟨8, 9⟩] ∧
    segments s.initWorld.2.walls.vertices
      = [(⟨-8, 9⟩, ⟨-8, 0⟩), (⟨-8, 0⟩, ⟨8, 0⟩), (⟨8, 0⟩, ⟨8, 9⟩)] ∧
    s.initWorld.2.mousejoint = none ∧ s.initWorld.2.attached = false ∧
    s.initWorld.2.world.joints = [] := by
  have key : s.initWorld = (.ok (), { s with
      world := ⟨⟨0, -98 / 10⟩, [⟨0, true⟩, ⟨1, true⟩, ⟨2, true⟩], [], 3, 0⟩,
      walls := ⟨[⟨-8, 9⟩, ⟨-8, 0⟩, ⟨8, 0⟩, ⟨8, 9⟩], 0⟩,
      redCircle := ⟨⟨-5, 2⟩, 1 / 2, 1⟩,
      whiteBox := ⟨⟨5, 2⟩, ⟨9 / 10, 9 / 10⟩, 2⟩,
      mousejoint := none, attached := false }) := by
    norm_num [initWorld, hmin, hmax, Polyline.spawn, Circle.spawn, Box.spawn,
      b2World.CreateBody, b2World.create]
  rw [key]
  exact ⟨rfl, rfl, rfl, rfl, rfl, rfl⟩

/-- Witness for C9 amended: the constructor sets the bounds and calls `initWorld()`. -/
theorem initWorld_walls_and_idle_witness :
    create.walls.vertices = [⟨-8, 9⟩, ⟨-8, 0⟩, ⟨8, 0⟩, ⟨8, 9⟩] ∧
    create.mousejoint = none ∧ create.attached = false :=
  ⟨(initWorld_walls_and_idle { blank with worldMin := ⟨-8, 0⟩, worldMax := ⟨8, 9⟩ }
      rfl rfl).2.1,
    (initWorld_walls_and_idle { blank with worldMin := ⟨-8, 0⟩, worldMax := ⟨8, 9⟩ }
      rfl rfl).2.2.2.1,
    (initWorld_walls_and_idle { blank with worldMin := ⟨-8, 0⟩, worldMax := ⟨8, 9⟩ }
      rfl rfl).2.2.2.2.1⟩

/-- C10: `addPolyline` on a vertex list with fewer than two vertices is rejected with
`invalidGeometry` and leaves every member as it was; `polylines` in particular
has the same elements. -/
theorem addPolyline_rejects_short (s : PencilPhysics) (vertices : List Vec2)
    (hshort : vertices.length < 2) :
    s.addPolyline vertices = (.error .invalidGeometry, s) ∧
    (s.addPolyline vertices).2.polylines = s.polylines ∧
    (s.addPolyline vertices).2.polylines.length = s.polylines.length := by
  have key : s.addPolyline vertices = (.error .invalidGeometry, s) := by
    simp [addPolyline, Polyline.spawn, hshort]
  rw [key]
  exact ⟨rfl, rfl, rfl⟩

/-- Witness for C10: a one-vertex polyline is rejected on `mixedScene`; the empty one
too. -/
theorem addPolyline_rejects_short_witness :
    ([⟨0, 1⟩] : List Vec2).length < 2 ∧
    mixedScene.addPolyline [⟨0, 1⟩] = (.error .invalidGeometry, mixedScene) ∧
    mixedScene.addPolyline [] = (.error .invalidGeometry, mixedScene) :=
  ⟨by decide, (addPolyline_rejects_short mixedScene [⟨0, 1⟩] (by decide)).1,
    (addPolyline_rejects_short mixedScene [] (by decide)).1⟩

end PencilPhysics

end Pencil
